import Mathlib

/-!
Shallow embedding of the meshTransform program (src/src/main.rs).

Numeric model: the Rust code computes over `f32`; here every `f32` value is
modelled as an exact real number, so `sqrt`, `sin`, `cos` are the Mathlib real
functions and division follows the Mathlib convention.  Rust panics
(`unwrap`, `assert_eq!`, out-of-bounds indexing) are modelled as `none` of an
`Option` (or a dedicated constructor), so that a panicking execution is
distinguishable from a normal one.

The `nalgebra` library calls made by the code (`magnitude`, `normalize`,
`Rotation3::rotation_between`, `Isometry3::from_parts`) are embedded from the
library's documented exact-real semantics: `rotation_between a b` normalizes
both vectors (returning the identity when either has zero norm), rotates about
the normalized cross product `na × nb` by the angle between the unit vectors
(for unit vectors `cos θ = na ⬝ nb` and `sin θ = ‖na × nb‖`, which avoids any
`acos`), and returns `None` when the cross product vanishes while the dot
product is negative, i.e. for exactly anti-parallel directions.
-/

namespace MeshTransform

noncomputable section

open Classical

/-- A 3-component vector of reals, modelling `nalgebra::Vector3<f32>`. -/
@[ext] structure V3 where
  x : ℝ
  y : ℝ
  z : ℝ

namespace V3

def zero : V3 := ⟨0, 0, 0⟩

instance : Add V3 := ⟨fun a b => ⟨a.x + b.x, a.y + b.y, a.z + b.z⟩⟩

instance : Sub V3 := ⟨fun a b => ⟨a.x - b.x, a.y - b.y, a.z - b.z⟩⟩

instance : SMul ℝ V3 := ⟨fun t v => ⟨t * v.x, t * v.y, t * v.z⟩⟩

/-- Componentwise scaling, `Vector3::scale` (vector times scalar). -/
def scale (v : V3) (s : ℝ) : V3 := ⟨v.x * s, v.y * s, v.z * s⟩

/-- Dot product, `Vector3::dot`. -/
def dot (a b : V3) : ℝ := a.x * b.x + a.y * b.y + a.z * b.z

/-- Euclidean norm, `Vector3::magnitude`. -/
def magnitude (v : V3) : ℝ := Real.sqrt (v.dot v)

/-- Cross product, `Vector3::cross`. -/
def cross (a b : V3) : V3 :=
  ⟨a.y * b.z - a.z * b.y, a.z * b.x - a.x * b.z, a.x * b.y - a.y * b.x⟩

/-- Normalization `v / ‖v‖`, `Vector3::normalize` / `Unit::new_normalize`. -/
def normalize (v : V3) : V3 :=
  ⟨v.x / v.magnitude, v.y / v.magnitude, v.z / v.magnitude⟩

end V3

/-- A 3×3 real matrix, modelling `nalgebra::Matrix3<f32>` entrywise. -/
@[ext] structure M3 where
  a11 : ℝ
  a12 : ℝ
  a13 : ℝ
  a21 : ℝ
  a22 : ℝ
  a23 : ℝ
  a31 : ℝ
  a32 : ℝ
  a33 : ℝ

namespace M3

def zero : M3 := ⟨0, 0, 0, 0, 0, 0, 0, 0, 0⟩

/-- The identity matrix. -/
def id : M3 := ⟨1, 0, 0, 0, 1, 0, 0, 0, 1⟩

def add (m n : M3) : M3 :=
  ⟨m.a11 + n.a11, m.a12 + n.a12, m.a13 + n.a13,
   m.a21 + n.a21, m.a22 + n.a22, m.a23 + n.a23,
   m.a31 + n.a31, m.a32 + n.a32, m.a33 + n.a33⟩

/-- Matrix times scalar, the `transform * weight` of the interpolation loop. -/
def smul (s : ℝ) (m : M3) : M3 :=
  ⟨s * m.a11, s * m.a12, s * m.a13,
   s * m.a21, s * m.a22, s * m.a23,
   s * m.a31, s * m.a32, s * m.a33⟩

/-- Entrywise division by a scalar, the `result /= sum_weights` step. -/
def divScalar (m : M3) (s : ℝ) : M3 :=
  ⟨m.a11 / s, m.a12 / s, m.a13 / s,
   m.a21 / s, m.a22 / s, m.a23 / s,
   m.a31 / s, m.a32 / s, m.a33 / s⟩

/-- Matrix applied to a vector as a linear map. -/
def mulVec (m : M3) (v : V3) : V3 :=
  ⟨m.a11 * v.x + m.a12 * v.y + m.a13 * v.z,
   m.a21 * v.x + m.a22 * v.y + m.a23 * v.z,
   m.a31 * v.x + m.a32 * v.y + m.a33 * v.z⟩

end M3

/-- A directed reference line given by an origin point and a heading point. -/
structure Line where
  origin : V3
  heading : V3

/-- Sum of a list of matrices (used to state the spec's Σ formula). -/
def sumM3 : List M3 → M3
  | [] => M3.zero
  | m :: rest => M3.add m (sumM3 rest)

/-- `WarpTransformer::perpendicular_distance`. -/
def perpendicular_distance (point : V3) (line : Line) : ℝ :=
  let ab := line.heading - line.origin
  let ap := point - line.origin
  let magnitude_ab := ab.magnitude
  let projection_length := ap.dot ab / (magnitude_ab * magnitude_ab)
  let projection := ab.scale projection_length
  let perpendicular := ap - projection
  perpendicular.magnitude

/-- Rodrigues rotation matrix about unit axis `u` with cosine `c` and sine `s`
of the rotation angle; this is the matrix `nalgebra` builds (via a unit
quaternion) in `UnitQuaternion::from_axis_angle`. -/
def rodrigues (u : V3) (c s : ℝ) : M3 :=
  ⟨c + (1 - c) * u.x * u.x, (1 - c) * u.x * u.y - s * u.z, (1 - c) * u.x * u.z + s * u.y,
   (1 - c) * u.y * u.x + s * u.z, c + (1 - c) * u.y * u.y, (1 - c) * u.y * u.z - s * u.x,
   (1 - c) * u.z * u.x - s * u.y, (1 - c) * u.z * u.y + s * u.x, c + (1 - c) * u.z * u.z⟩

/-- Exact-real embedding of `nalgebra`'s `Rotation3::rotation_between(a, b)`
(resulting rotation taken as a matrix).  When either input fails to
normalize (zero norm, the exact-real limit of `try_normalize` with its epsilon)
the library returns the identity.  Otherwise it rotates about the normalized
cross product by the angle between the unit vectors: for unit vectors the
cosine of that angle is the dot product and the sine is the cross product's
norm.  When the cross product has zero norm the directions are parallel: the
identity is returned for equal directions, and `None` for anti-parallel ones
(undefined axis). -/
def rotation_between (a b : V3) : Option M3 :=
  if a.magnitude = 0 ∨ b.magnitude = 0 then some M3.id
  else
    let na := a.normalize
    let nb := b.normalize
    let c := na.cross nb
    if c.magnitude = 0 then
      if na.dot nb < 0 then none else some M3.id
    else
      some (rodrigues c.normalize (na.dot nb) c.magnitude)

/-- The rotation-plus-translation pair of `nalgebra::Isometry3<f32>`, with the
rotation kept as a matrix (the program extracts
`isometry.rotation.to_rotation_matrix().matrix()`). -/
structure Iso where
  translation : V3
  rotation : M3

/-- `WarpTransformer::create_transformation_matrix`; `none` models the panic of
the `.unwrap()` on `rotation_between` (anti-parallel directions). -/
def create_transformation_matrix (line1 line2 : Line) : Option Iso :=
  let dir1 := (line1.heading - line1.origin).normalize
  let dir2 := (line2.heading - line2.origin).normalize
  (rotation_between dir2 dir1).map
    (fun rot => ⟨line1.origin - line2.origin, rot⟩)

/-- Run a fallible step over each element in order, collecting the results;
`none` as soon as one step fails.  This models a Rust loop that pushes
`f line` into a vector, where a panic inside `f` aborts the whole run. -/
def collectResults (f : α → Option β) : List α → Option (List β)
  | [] => some []
  | a :: rest =>
    (f a).bind (fun b => (collectResults f rest).map (fun bs => b :: bs))

/-- `WarpTransformer::create_transformation_matrices`; the `lines[0]` indexing
panics on an empty list, modelled by `none`. -/
def create_transformation_matrices (lines : List Line) : Option (List Iso) :=
  match lines with
  | [] => none
  | first_line :: _ => collectResults (create_transformation_matrix first_line) lines

/-- The warp field: the reference lines and the cached per-line rotation
matrices (`WarpTransformer` struct). -/
structure WarpTransformer where
  lines : List Line
  transforms : List M3

/-- `WarpTransformer::new`: build the alignment isometries and keep only the
rotation matrices, index-aligned with the lines. -/
def WarpTransformer.new (lines : List Line) : Option WarpTransformer :=
  (create_transformation_matrices lines).map
    (fun isometries => ⟨lines, isometries.map (fun i => i.rotation)⟩)

/-- `WarpTransformer::interpolate_transforms`: `none` models the
`assert_eq!` panic on mismatched lengths; otherwise the weighted entrywise sum
of the matrices divided by the sum of the weights. -/
def interpolate_transforms (transforms : List M3) (weights : List ℝ) : Option M3 :=
  if transforms.length = weights.length then
    let sum_weights : ℝ := weights.sum
    let result :=
      (transforms.zip weights).foldl
        (fun acc tw => M3.add acc (M3.smul tw.2 tw.1)) M3.zero
    some (result.divScalar sum_weights)
  else none

/-- `<WarpTransformer as Transformer>::transform`. -/
def WarpTransformer.transform (w : WarpTransformer) (pt : V3) : Option V3 :=
  let weights := w.lines.map (fun line => perpendicular_distance pt line)
  (interpolate_transforms w.transforms weights).map (fun m => m.mulVec pt)

/-- The blended matrix exactly as the spec words it: the element-wise weighted
sum `Σ_i rotations[i] * weights[i]` of the 3×3 matrices, normalized (divided
entrywise) by `Σ_i weights[i]`. -/
def specBlend (rotations : List M3) (weights : List ℝ) : M3 :=
  (sumM3 (List.zipWith (fun r w => M3.smul w r) rotations weights)).divScalar
    weights.sum

/-- `<RotateTransformer as Transformer>::transform` (Rodrigues formula applied
directly to the point). -/
def rotateTransform (axis : V3) (angle : ℝ) (pt : V3) : V3 :=
  let u := axis.normalize
  let sin_angle := Real.sin angle
  let cos_angle := Real.cos angle
  pt.scale cos_angle + (u.cross pt).scale sin_angle +
    u.scale (u.dot pt * (1 - cos_angle))

/-- Rust `str::split_whitespace` on a line modelled as a list of characters:
maximal runs of non-whitespace characters, in order, with no empty tokens.
`acc` holds the (reversed) characters of the token currently being read. -/
def splitWSGo : List Char → List Char → List (List Char)
  | [], acc => if acc = [] then [] else [acc.reverse]
  | c :: rest, acc =>
    if c.isWhitespace then
      if acc = [] then splitWSGo rest [] else acc.reverse :: splitWSGo rest []
    else
      splitWSGo rest (c :: acc)

/-- The `words` of one input line. -/
def splitWS (l : List Char) : List (List Char) := splitWSGo l []

/-- One iteration of the stdin loop in `main`, processing a single text line
(a list of characters).  `none` models a panic: indexing `words[0]` on an
empty word list, or an `unwrap` failure while parsing a coordinate or
transforming.  The float parser `pf` and the float formatter `fmt` are the
external text-token collaborators of the spec, passed in as parameters. -/
def processLine (pf : List Char → Option ℝ) (fmt : ℝ → List Char)
    (tr : V3 → Option V3) (text_line : List Char) : Option (List Char) :=
  match splitWS text_line with
  | [] => none
  | w0 :: rest =>
    if (w0 ≠ ['v'] ∧ w0 ≠ ['v', 'e', 'r', 't', 'e', 'x']) ∨
        (w0 :: rest).length ≠ 4 then
      some text_line
    else
      match rest with
      | [sx, sy, sz] =>
        match pf sx, pf sy, pf sz with
        | some x, some y, some z =>
          match tr ⟨x, y, z⟩ with
          | some o =>
            some (w0 ++ [' '] ++ fmt o.x ++ [' '] ++ fmt o.y ++ [' '] ++ fmt o.z)
          | none => none
        | _, _, _ => none
      | _ => some text_line

/-- The x-axis reference line: origin `(0,0,0)`, heading `(1,0,0)` (first
default line in `main`). -/
def xline : Line := ⟨⟨0, 0, 0⟩, ⟨1, 0, 0⟩⟩

/-- The z-axis reference line: origin `(0,0,0)`, heading `(0,0,1)` (second
default line in `main`). -/
def zline : Line := ⟨⟨0, 0, 0⟩, ⟨0, 0, 1⟩⟩

/-- The built-in default reference pair used when `warp` gets zero `--line`
flags: two orthogonal lines through the origin. -/
def default_lines : List Line := [xline, zline]

/-- The diagnostic printed to standard error for a single `--line` flag. -/
def usageMsg : String := "A minimum of two lines is required."

/-- The `match lines.len()` in `main` that selects the reference set for the
warp subcommand: zero flags fall back to the default pair, exactly one flag is
a usage error (printed to stderr, `main` returns before touching stdin), two
or more use the given set. -/
def warpCliLines (lines : List Line) : Except String (List Line) :=
  match lines.length with
  | 0 => .ok default_lines
  | 1 => .error usageMsg
  | _ => .ok lines

/-- Outcome of a whole `warp` run: a pre-input usage error (diagnostic on
stderr, nothing read or written), a panic while building the warp field, or
the emitted stdout lines together with whether the stream loop panicked. -/
inductive RunResult where
  | usage (msg : String)
  | constructionPanic
  | outputs (outs : List (List Char)) (panicked : Bool)

/-- The stdin loop: process lines in order, stopping at the first panic. -/
def runLines (f : List Char → Option (List Char)) :
    List (List Char) → List (List Char) × Bool
  | [] => ([], false)
  | s :: rest =>
    match f s with
    | none => ([], true)
    | some o =>
      let r := runLines f rest
      (o :: r.1, r.2)

/-- `main` specialized to the `warp` subcommand: dispatch on the number of
`--line` flags, build the warp field, then run the stdin loop. -/
def mainWarp (pf : List Char → Option ℝ) (fmt : ℝ → List Char)
    (cliLines : List Line) (input : List (List Char)) : RunResult :=
  match warpCliLines cliLines with
  | .error e => .usage e
  | .ok ls =>
    match WarpTransformer.new ls with
    | none => .constructionPanic
    | some w =>
      let r := runLines (processLine pf fmt w.transform) input
      .outputs r.1 r.2

/-- A line anti-parallel to `xline`: same origin, opposite direction. -/
def neg_xline : Line := ⟨⟨0, 0, 0⟩, ⟨-1, 0, 0⟩⟩

/-- The rotation aligning the z axis direction with the x axis direction, as
the warp construction computes it for the default pair. -/
def R13 : M3 := ⟨0, 0, 1, 0, 1, 0, -1, 0, 0⟩

/-- The warp field the program builds from the default reference pair. -/
def defaultWarp : WarpTransformer := ⟨default_lines, [M3.id, R13]⟩

/-! ### Lemmas about the vector and matrix operations -/

namespace V3

@[simp] lemma add_mk (a b c d e f : ℝ) :
    (⟨a, b, c⟩ + ⟨d, e, f⟩ : V3) = ⟨a + d, b + e, c + f⟩ := rfl

@[simp] lemma sub_mk (a b c d e f : ℝ) :
    (⟨a, b, c⟩ - ⟨d, e, f⟩ : V3) = ⟨a - d, b - e, c - f⟩ := rfl

@[simp] lemma smul_mk (t a b c : ℝ) :
    (t • (⟨a, b, c⟩ : V3)) = ⟨t * a, t * b, t * c⟩ := rfl

@[simp] lemma add_x (a b : V3) : (a + b).x = a.x + b.x := rfl
@[simp] lemma add_y (a b : V3) : (a + b).y = a.y + b.y := rfl
@[simp] lemma add_z (a b : V3) : (a + b).z = a.z + b.z := rfl
@[simp] lemma sub_x (a b : V3) : (a - b).x = a.x - b.x := rfl
@[simp] lemma sub_y (a b : V3) : (a - b).y = a.y - b.y := rfl
@[simp] lemma sub_z (a b : V3) : (a - b).z = a.z - b.z := rfl
@[simp] lemma smul_x (t : ℝ) (v : V3) : (t • v).x = t * v.x := rfl
@[simp] lemma smul_y (t : ℝ) (v : V3) : (t • v).y = t * v.y := rfl
@[simp] lemma smul_z (t : ℝ) (v : V3) : (t • v).z = t * v.z := rfl

lemma dot_self_nonneg (v : V3) : 0 ≤ v.dot v := by
  unfold dot
  have hx := mul_self_nonneg v.x
  have hy := mul_self_nonneg v.y
  have hz := mul_self_nonneg v.z
  linarith

lemma dot_self_pos (v : V3) (h : v ≠ zero) : 0 < v.dot v := by
  rcases lt_or_eq_of_le (dot_self_nonneg v) with hp | hz
  · exact hp
  · exfalso
    apply h
    have hx := sq_nonneg v.x
    have hy := sq_nonneg v.y
    have hz2 := sq_nonneg v.z
    unfold dot at hz
    have hx0 : v.x = 0 := by nlinarith
    have hy0 : v.y = 0 := by nlinarith
    have hz0 : v.z = 0 := by nlinarith
    unfold zero
    ext <;> assumption

lemma magnitude_nonneg (v : V3) : 0 ≤ v.magnitude := Real.sqrt_nonneg _

lemma mul_self_magnitude (v : V3) : v.magnitude * v.magnitude = v.dot v :=
  Real.mul_self_sqrt (dot_self_nonneg v)

lemma magnitude_eq_zero_iff (v : V3) : v.magnitude = 0 ↔ v = zero := by
  constructor
  · intro h
    have hd : v.dot v = 0 := by
      rw [← mul_self_magnitude v, h, mul_zero]
    by_contra hne
    exact absurd hd (ne_of_gt (dot_self_pos v hne))
  · intro h
    subst h
    unfold magnitude dot zero
    norm_num

lemma magnitude_zero : magnitude zero = 0 := (magnitude_eq_zero_iff _).2 rfl

lemma cross_self (v : V3) : v.cross v = zero := by
  unfold cross zero
  ext <;> dsimp <;> ring

lemma sub_eq_zero_iff (a b : V3) : a - b = zero ↔ a = b := by
  simp [V3.ext_iff, zero, sub_eq_zero]

/-- A vector whose self dot product is 1 is unchanged by normalization. -/
lemma normalize_of_dot_one (v : V3) (h : v.dot v = 1) : v.normalize = v := by
  unfold normalize magnitude
  rw [h, Real.sqrt_one]
  ext <;> dsimp <;> ring

end V3

namespace M3

lemma add_zero' (m : M3) : add m zero = m := by
  unfold add zero; ext <;> dsimp <;> ring

lemma zero_add' (m : M3) : add zero m = m := by
  unfold add zero; ext <;> dsimp <;> ring

lemma add_assoc' (a b c : M3) : add (add a b) c = add a (add b c) := by
  unfold add; ext <;> dsimp <;> ring

end M3

/-- The accumulator of the interpolation loop, made explicit: folding the
weighted matrices onto `z` adds their sum to `z`. -/
lemma foldl_add_smul (l : List (M3 × ℝ)) (z : M3) :
    l.foldl (fun acc tw => M3.add acc (M3.smul tw.2 tw.1)) z =
      M3.add z (sumM3 (l.map (fun tw => M3.smul tw.2 tw.1))) := by
  induction l generalizing z with
  | nil => simp [sumM3, M3.add_zero']
  | cons a rest ih =>
    simp only [List.foldl_cons, List.map_cons, sumM3, ih, M3.add_assoc']

lemma zipWith_smul_eq_map_zip (ts : List M3) (ws : List ℝ) :
    List.zipWith (fun r w => M3.smul w r) ts ws =
      (ts.zip ws).map (fun tw => M3.smul tw.2 tw.1) := by
  induction ts generalizing ws with
  | nil => simp
  | cons t rest ih =>
    cases ws with
    | nil => simp
    | cons w ws => simp [ih]

/-- Aligning a direction with itself: `rotation_between` returns the identity
whatever the vector is (the anti-parallel `None` branch needs a negative dot
product, and the self dot product is a sum of squares). -/
lemma rotation_between_self (a : V3) : rotation_between a a = some M3.id := by
  unfold rotation_between
  by_cases h : a.magnitude = 0
  · rw [if_pos (Or.inl h)]
  · rw [if_neg (by tauto)]
    simp only [V3.cross_self, V3.magnitude_zero, eq_self_iff_true, if_true]
    rw [if_neg (not_lt.2 (V3.dot_self_nonneg _))]

/-- Aligning a line to itself yields exactly zero translation and the identity
rotation. -/
lemma create_transformation_matrix_self (l : Line) :
    create_transformation_matrix l l = some ⟨V3.zero, M3.id⟩ := by
  unfold create_transformation_matrix
  have hzero : l.origin - l.origin = V3.zero := by
    unfold V3.zero
    ext <;> simp
  simp only [rotation_between_self, Option.map_some', hzero]

/-- `collectResults` preserves the length when it succeeds. -/
lemma collectResults_length (f : α → Option β) :
    ∀ (l : List α) (bs : List β),
      collectResults f l = some bs → bs.length = l.length := by
  intro l
  induction l with
  | nil =>
    intro bs h
    unfold collectResults at h
    injection h with h
    subst h
    rfl
  | cons a rest ih =>
    intro bs h
    unfold collectResults at h
    cases hfa : f a with
    | none => rw [hfa] at h; simp at h
    | some b =>
      rw [hfa] at h
      cases hrest : collectResults f rest with
      | none => rw [hrest] at h; simp at h
      | some bs2 =>
        rw [hrest] at h
        simp only [Option.some_bind, Option.map_some'] at h
        injection h with h
        subst h
        simp [ih bs2 hrest]

lemma magnitude_of_dot_one (v : V3) (h : v.dot v = 1) : v.magnitude = 1 := by
  unfold V3.magnitude
  rw [h, Real.sqrt_one]

lemma magnitude_ex : (⟨1, 0, 0⟩ : V3).magnitude = 1 :=
  magnitude_of_dot_one _ (by norm_num [V3.dot])

lemma magnitude_ey : (⟨0, 1, 0⟩ : V3).magnitude = 1 :=
  magnitude_of_dot_one _ (by norm_num [V3.dot])

lemma magnitude_ez : (⟨0, 0, 1⟩ : V3).magnitude = 1 :=
  magnitude_of_dot_one _ (by norm_num [V3.dot])

lemma magnitude_negex : (⟨-1, 0, 0⟩ : V3).magnitude = 1 :=
  magnitude_of_dot_one _ (by norm_num [V3.dot])

lemma normalize_ex : (⟨1, 0, 0⟩ : V3).normalize = ⟨1, 0, 0⟩ :=
  V3.normalize_of_dot_one _ (by norm_num [V3.dot])

lemma normalize_ey : (⟨0, 1, 0⟩ : V3).normalize = ⟨0, 1, 0⟩ :=
  V3.normalize_of_dot_one _ (by norm_num [V3.dot])

lemma normalize_ez : (⟨0, 0, 1⟩ : V3).normalize = ⟨0, 0, 1⟩ :=
  V3.normalize_of_dot_one _ (by norm_num [V3.dot])

lemma normalize_negex : (⟨-1, 0, 0⟩ : V3).normalize = ⟨-1, 0, 0⟩ :=
  V3.normalize_of_dot_one _ (by norm_num [V3.dot])

/-- The alignment rotation the construction computes for the default pair:
rotating the z direction onto the x direction about the y axis. -/
lemma rotation_between_ez_ex : rotation_between ⟨0, 0, 1⟩ ⟨1, 0, 0⟩ = some R13 := by
  unfold rotation_between
  rw [if_neg (by rw [magnitude_ez, magnitude_ex]; norm_num)]
  simp only [normalize_ez, normalize_ex]
  have hc : V3.cross ⟨0, 0, 1⟩ ⟨1, 0, 0⟩ = ⟨0, 1, 0⟩ := by
    unfold V3.cross
    ext <;> norm_num
  simp only [hc, magnitude_ey, normalize_ey]
  rw [if_neg (by norm_num)]
  have hd : V3.dot ⟨0, 0, 1⟩ ⟨1, 0, 0⟩ = 0 := by norm_num [V3.dot]
  rw [hd]
  unfold rodrigues R13
  norm_num

/-- For exactly anti-parallel unit directions, `rotation_between` has no
defined axis and yields `None`. -/
lemma rotation_between_negex_ex : rotation_between ⟨-1, 0, 0⟩ ⟨1, 0, 0⟩ = none := by
  unfold rotation_between
  rw [if_neg (by rw [magnitude_negex, magnitude_ex]; norm_num)]
  simp only [normalize_negex, normalize_ex]
  have hc : V3.cross ⟨-1, 0, 0⟩ ⟨1, 0, 0⟩ = V3.zero := by
    unfold V3.cross V3.zero
    ext <;> norm_num
  simp only [hc, V3.magnitude_zero, eq_self_iff_true, if_true]
  have hd : V3.dot ⟨-1, 0, 0⟩ ⟨1, 0, 0⟩ = -1 := by norm_num [V3.dot]
  rw [hd, if_pos (by norm_num)]

lemma ctm_x_z : create_transformation_matrix xline zline = some ⟨V3.zero, R13⟩ := by
  unfold create_transformation_matrix xline zline
  have h1 : (⟨1, 0, 0⟩ : V3) - ⟨0, 0, 0⟩ = ⟨1, 0, 0⟩ := by ext <;> norm_num
  have h2 : (⟨0, 0, 1⟩ : V3) - ⟨0, 0, 0⟩ = ⟨0, 0, 1⟩ := by ext <;> norm_num
  have h3 : (⟨0, 0, 0⟩ : V3) - ⟨0, 0, 0⟩ = V3.zero := by
    unfold V3.zero
    ext <;> norm_num
  simp only [h1, h2, h3, normalize_ez, normalize_ex, rotation_between_ez_ex,
    Option.map_some']

lemma ctm_x_negx : create_transformation_matrix xline neg_xline = none := by
  unfold create_transformation_matrix xline neg_xline
  have h1 : (⟨1, 0, 0⟩ : V3) - ⟨0, 0, 0⟩ = ⟨1, 0, 0⟩ := by ext <;> norm_num
  have h2 : (⟨-1, 0, 0⟩ : V3) - ⟨0, 0, 0⟩ = ⟨-1, 0, 0⟩ := by ext <;> norm_num
  simp only [h1, h2, normalize_negex, normalize_ex, rotation_between_negex_ex,
    Option.map_none']

/-- The isometries the construction computes for the default pair. -/
lemma ctms_default : create_transformation_matrices default_lines =
    some [⟨V3.zero, M3.id⟩, ⟨V3.zero, R13⟩] := by
  unfold default_lines create_transformation_matrices
  simp [collectResults, create_transformation_matrix_self, ctm_x_z]

/-- The warp field built from the default pair. -/
lemma new_default : WarpTransformer.new default_lines = some defaultWarp := by
  unfold WarpTransformer.new defaultWarp
  rw [ctms_default]
  rfl

/-- Construction over the anti-parallel pair panics (models the `.unwrap()` of
a `None` rotation). -/
lemma new_antiparallel_none : WarpTransformer.new [xline, neg_xline] = none := by
  have hctms : create_transformation_matrices [xline, neg_xline] = none := by
    unfold create_transformation_matrices
    simp [collectResults, create_transformation_matrix_self, ctm_x_negx]
  unfold WarpTransformer.new
  rw [hctms]
  rfl

/-- On a non-degenerate line, every point of the infinite line through origin
and heading is at perpendicular distance zero. -/
lemma perpendicular_distance_on_line (line : Line) (t : ℝ)
    (h : line.heading ≠ line.origin) :
    perpendicular_distance (line.origin + t • (line.heading - line.origin))
      line = 0 := by
  show V3.magnitude
    ((line.origin + t • (line.heading - line.origin) - line.origin) -
      V3.scale (line.heading - line.origin)
        (V3.dot (line.origin + t • (line.heading - line.origin) - line.origin)
            (line.heading - line.origin) /
          (V3.magnitude (line.heading - line.origin) *
            V3.magnitude (line.heading - line.origin)))) = 0
  have habne : line.heading - line.origin ≠ V3.zero := by
    intro hz
    exact h ((V3.sub_eq_zero_iff _ _).1 hz)
  have hD := V3.dot_self_pos _ habne
  have hap : line.origin + t • (line.heading - line.origin) - line.origin =
      t • (line.heading - line.origin) := by
    ext <;> simp
  rw [hap, V3.mul_self_magnitude]
  have hdot : V3.dot (t • (line.heading - line.origin))
      (line.heading - line.origin) =
      t * V3.dot (line.heading - line.origin) (line.heading - line.origin) := by
    unfold V3.dot
    simp only [V3.smul_x, V3.smul_y, V3.smul_z]
    ring
  rw [hdot, mul_div_assoc, div_self (ne_of_gt hD), mul_one]
  have hperp : t • (line.heading - line.origin) -
      V3.scale (line.heading - line.origin) t = V3.zero := by
    unfold V3.scale V3.zero
    ext <;> simp <;> ring
  rw [hperp, V3.magnitude_zero]

lemma xline_nondegenerate : xline.heading ≠ xline.origin := by
  unfold xline
  intro hc
  have hx := congrArg V3.x hc
  norm_num at hx

lemma zline_nondegenerate : zline.heading ≠ zline.origin := by
  unfold zline
  intro hc
  have hz := congrArg V3.z hc
  norm_num at hz

lemma pd_origin_xline : perpendicular_distance ⟨0, 0, 0⟩ xline = 0 := by
  have h : (⟨0, 0, 0⟩ : V3) =
      xline.origin + (0 : ℝ) • (xline.heading - xline.origin) := by
    unfold xline
    ext <;> norm_num
  rw [h]
  exact perpendicular_distance_on_line xline 0 xline_nondegenerate

lemma pd_origin_zline : perpendicular_distance ⟨0, 0, 0⟩ zline = 0 := by
  have h : (⟨0, 0, 0⟩ : V3) =
      zline.origin + (0 : ℝ) • (zline.heading - zline.origin) := by
    unfold zline
    ext <;> norm_num
  rw [h]
  exact perpendicular_distance_on_line zline 0 zline_nondegenerate

lemma pd_ex_xline : perpendicular_distance ⟨1, 0, 0⟩ xline = 0 := by
  have h : (⟨1, 0, 0⟩ : V3) =
      xline.origin + (1 : ℝ) • (xline.heading - xline.origin) := by
    unfold xline
    ext <;> norm_num
  rw [h]
  exact perpendicular_distance_on_line xline 1 xline_nondegenerate

lemma pd_ex_zline : perpendicular_distance ⟨1, 0, 0⟩ zline = 1 := by
  norm_num [perpendicular_distance, zline, V3.dot, V3.magnitude, V3.scale,
    Real.sqrt_one, Real.sqrt_zero]

/-! ### Claim theorems -/

/-- Claim C1: for every point `P`, warp evaluation first computes `weights[i]`
as the perpendicular distance from `P` to `lines[i]`, then returns the matrix
`(Σ_i rotations[i] * weights[i]) / (Σ_i weights[i])` applied as a linear map
to `P`, with no translation component applied.  (The length hypothesis is the
`assert_eq!` precondition; it always holds for transformers built by
`WarpTransformer::new`.) -/
theorem claim_C1_warp_eval_blend (w : WarpTransformer) (pt : V3)
    (h : w.transforms.length = w.lines.length) :
    w.transform pt =
      some ((specBlend w.transforms
        (w.lines.map (fun line => perpendicular_distance pt line))).mulVec pt) := by
  have hlen : w.transforms.length =
      (w.lines.map (fun line => perpendicular_distance pt line)).length := by
    rw [List.length_map]; exact h
  simp only [WarpTransformer.transform, interpolate_transforms, specBlend,
    if_pos hlen, Option.map_some', zipWith_smul_eq_map_zip, foldl_add_smul,
    M3.zero_add']

/-- Witness for C1 at a concrete one-line transformer and point. -/
theorem claim_C1_warp_eval_blend_witness :
    (⟨[xline], [M3.id]⟩ : WarpTransformer).transform ⟨1, 2, 3⟩ =
      some ((specBlend [M3.id]
        ([xline].map (fun line => perpendicular_distance ⟨1, 2, 3⟩ line))).mulVec
          ⟨1, 2, 3⟩) :=
  claim_C1_warp_eval_blend ⟨[xline], [M3.id]⟩ ⟨1, 2, 3⟩ rfl

/-- Claim C2: for any point `P` and any line with `heading ≠ origin`,
`perpendicular_distance` is non-negative, and it is `0` whenever `P` lies on
the infinite line through the origin and heading points. -/
theorem claim_C2_perpendicular_distance (P : V3) (line : Line)
    (h : line.heading ≠ line.origin) :
    0 ≤ perpendicular_distance P line ∧
      ∀ t : ℝ, P = line.origin + t • (line.heading - line.origin) →
        perpendicular_distance P line = 0 := by
  constructor
  · exact V3.magnitude_nonneg _
  · intro t hP
    subst hP
    exact perpendicular_distance_on_line line t h

/-- Witness for C2 at the x-axis line: a point off the line has non-negative
distance, and the point `(2,0,0) = origin + 2·(heading − origin)` on the line
has distance exactly `0`. -/
theorem claim_C2_perpendicular_distance_witness :
    0 ≤ perpendicular_distance ⟨5, 7, 9⟩ xline ∧
      perpendicular_distance ⟨2, 0, 0⟩ xline = 0 := by
  have hne : xline.heading ≠ xline.origin := by
    unfold xline
    intro hc
    have := congrArg V3.x hc
    norm_num at this
  refine ⟨(claim_C2_perpendicular_distance ⟨5, 7, 9⟩ xline hne).1, ?_⟩
  refine (claim_C2_perpendicular_distance ⟨2, 0, 0⟩ xline hne).2 2 ?_
  unfold xline
  ext <;> simp

/-- Claim C8: invoking warp with exactly one reference line yields the usage
diagnostic (printed to standard error) and the run ends with no input read or
processed and no output emitted, whatever the input stream holds. -/
theorem claim_C8_one_line_usage_error (pf : List Char → Option ℝ)
    (fmt : ℝ → List Char) (l : Line) (input : List (List Char)) :
    mainWarp pf fmt [l] input = RunResult.usage usageMsg := rfl

/-- Claim C9: the Rotate transform with angle 0 returns every point unchanged,
for every axis vector.  (In this exact-real model the normalized axis is a
well-defined vector for every input axis; the `sin 0 = 0` and `cos 0 = 1`
factors erase its contribution entirely.) -/
theorem claim_C9_rotate_angle_zero_id (axis pt : V3) :
    rotateTransform axis 0 pt = pt := by
  unfold rotateTransform
  simp only [Real.sin_zero, Real.cos_zero]
  unfold V3.scale V3.cross V3.dot
  ext <;> simp

/-- Claim C3: aligning the anchor line to itself yields exactly the identity
rotation and zero translation, and consequently for every reference set headed
by a non-degenerate anchor the first entry of the rotations array of a
successfully constructed `WarpTransformer` is the identity matrix. -/
theorem claim_C3_anchor_self_identity (l : Line) (_h : l.heading ≠ l.origin) :
    create_transformation_matrix l l = some ⟨V3.zero, M3.id⟩ ∧
      ∀ (rest : List Line) (w : WarpTransformer),
        WarpTransformer.new (l :: rest) = some w →
          w.transforms.head? = some M3.id := by
  refine ⟨create_transformation_matrix_self l, ?_⟩
  intro rest w hw
  unfold WarpTransformer.new at hw
  cases hctms : create_transformation_matrices (l :: rest) with
  | none => rw [hctms] at hw; simp at hw
  | some isos =>
    rw [hctms] at hw
    simp only [Option.map_some'] at hw
    injection hw with hw
    subst hw
    unfold create_transformation_matrices collectResults at hctms
    cases hrest : collectResults (create_transformation_matrix l) rest with
    | none =>
      rw [hrest, create_transformation_matrix_self l] at hctms
      simp at hctms
    | some bs =>
      rw [hrest, create_transformation_matrix_self l] at hctms
      simp only [Option.some_bind, Option.map_some'] at hctms
      injection hctms with hctms
      subst hctms
      rfl

/-- Witness for C3 at the default pair: self-alignment of the x-axis anchor is
the identity isometry, and the constructed default warp field's first cached
rotation is the identity matrix. -/
theorem claim_C3_anchor_self_identity_witness :
    create_transformation_matrix xline xline = some ⟨V3.zero, M3.id⟩ ∧
      defaultWarp.transforms.head? = some M3.id :=
  ⟨(claim_C3_anchor_self_identity xline xline_nondegenerate).1,
   (claim_C3_anchor_self_identity xline xline_nondegenerate).2 [zline] defaultWarp
     new_default⟩

/-- Claim C4 is violated by the code: for the anti-parallel reference pair the
alignment rotation is `None` (undefined axis) and the `.unwrap()` in
`create_transformation_matrix` panics, so warp-field construction fails
instead of succeeding.  This theorem evaluates the embedded code at that
failing input: both the single alignment and the whole construction come back
`none` (the model of the panic). -/
theorem claim_C4_antiparallel_construction_panics :
    create_transformation_matrix xline neg_xline = none ∧
      WarpTransformer.new [xline, neg_xline] = none :=
  ⟨ctm_x_negx, new_antiparallel_none⟩

/-- Claim C5 is violated by the code: at the origin — which lies on both
default reference lines — every weight is exactly `0` and their sum is `0`,
yet `transform` surfaces no error: the division by the zero weight sum goes
through silently and a coordinate triple is still produced (`0/0 = 0` in this
exact-real model; `NaN` in the `f32` program). -/
theorem claim_C5_zero_weight_sum_not_surfaced :
    (default_lines.map (fun line => perpendicular_distance ⟨0, 0, 0⟩ line)) =
        [0, 0] ∧
      (default_lines.map
        (fun line => perpendicular_distance ⟨0, 0, 0⟩ line)).sum = 0 ∧
      defaultWarp.transform ⟨0, 0, 0⟩ = some ⟨0, 0, 0⟩ := by
  have hmap : default_lines.map
      (fun line => perpendicular_distance ⟨0, 0, 0⟩ line) = [0, 0] := by
    simp [default_lines, pd_origin_xline, pd_origin_zline]
  refine ⟨hmap, by rw [hmap]; norm_num, ?_⟩
  unfold defaultWarp WarpTransformer.transform
  dsimp only
  rw [hmap]
  unfold interpolate_transforms
  norm_num [M3.add, M3.smul, M3.zero, M3.id, R13, M3.divScalar, M3.mulVec]

/-- Claim C6 is violated by the code on empty (or all-whitespace) lines: the
word list is empty, so `words[0]` panics instead of echoing the line.  First
conjunct: the empty line makes `processLine` panic (`none`), for an arbitrary
concrete parser/formatter/transform.  The remaining conjuncts show the
passthrough behaviour the claim describes does hold on non-empty non-vertex
lines (`hi`) and on malformed vertex-like lines (`v 1 2`, three tokens). -/
theorem claim_C6_empty_line_panics_not_passthrough :
    processLine (fun _ => none) (fun _ => []) (fun _ => none) [] = none ∧
      processLine (fun _ => none) (fun _ => []) (fun _ => none) ['h', 'i'] =
        some ['h', 'i'] ∧
      processLine (fun _ => none) (fun _ => []) (fun _ => none)
          ['v', ' ', '1', ' ', '2'] =
        some ['v', ' ', '1', ' ', '2'] := by
  refine ⟨rfl, ?_, ?_⟩ <;> decide

/-- Claim C7: with zero `--line` flags the warp subcommand falls back to the
built-in pair of orthogonal lines through the origin with headings `(1,0,0)`
and `(0,0,1)`; construction over that pair succeeds, evaluation is total (and
deterministic, being a pure function of the point), and the evaluation of the
fixed point `(1,0,0)` is the reproducible triple `(0,0,-1)`. -/
theorem claim_C7_zero_flags_default_pair :
    warpCliLines [] = Except.ok default_lines ∧
      default_lines = [⟨⟨0, 0, 0⟩, ⟨1, 0, 0⟩⟩, ⟨⟨0, 0, 0⟩, ⟨0, 0, 1⟩⟩] ∧
      WarpTransformer.new default_lines = some defaultWarp ∧
      (∀ pt, (defaultWarp.transform pt).isSome = true) ∧
      defaultWarp.transform ⟨1, 0, 0⟩ = some ⟨0, 0, -1⟩ := by
  refine ⟨rfl, rfl, new_default, fun pt => rfl, ?_⟩
  unfold defaultWarp WarpTransformer.transform
  dsimp only
  have hmap : default_lines.map
      (fun line => perpendicular_distance ⟨1, 0, 0⟩ line) = [0, 1] := by
    simp [default_lines, pd_ex_xline, pd_ex_zline]
  rw [hmap]
  unfold interpolate_transforms
  norm_num [M3.add, M3.smul, M3.zero, M3.id, R13, M3.divScalar, M3.mulVec]

/-- Claim C10: whenever `WarpTransformer::new` succeeds on a non-empty line
list, the cached rotations are index-aligned with the lines (equal lengths),
so the length assertion inside `interpolate_transforms` cannot fire and
`transform` returns a value for every point. -/
theorem claim_C10_transforms_aligned (lines : List Line) (w : WarpTransformer)
    (hne : lines ≠ []) (hw : WarpTransformer.new lines = some w) :
    w.transforms.length = w.lines.length ∧
      ∀ pt, (w.transform pt).isSome = true := by
  unfold WarpTransformer.new at hw
  cases hctms : create_transformation_matrices lines with
  | none => rw [hctms] at hw; simp at hw
  | some isos =>
    rw [hctms] at hw
    simp only [Option.map_some'] at hw
    injection hw with hw
    subst hw
    have hlen : isos.length = lines.length := by
      unfold create_transformation_matrices at hctms
      cases lines with
      | nil => exact absurd rfl hne
      | cons a rest => exact collectResults_length _ _ _ hctms
    refine ⟨by simp [hlen], ?_⟩
    intro pt
    unfold WarpTransformer.transform interpolate_transforms
    dsimp only
    rw [if_pos (by simp [hlen])]
    rfl

/-- Witness for C10 at the default pair. -/
theorem claim_C10_transforms_aligned_witness :
    defaultWarp.transforms.length = defaultWarp.lines.length ∧
      (defaultWarp.transform V3.zero).isSome = true :=
  ⟨(claim_C10_transforms_aligned default_lines defaultWarp
      (by simp [default_lines]) new_default).1,
   (claim_C10_transforms_aligned default_lines defaultWarp
      (by simp [default_lines]) new_default).2 V3.zero⟩

end

end MeshTransform
